import Mathlib

/-!
Verification development for the MicMate repository (files micmate.py and
karaoke_bot.py, a Discord "guess the song / guess the doodle" game).

Python strings are modelled as lists of code points (PyStr below); the string
helpers used by the bots (str.lower, str.strip, str.split, " ".join, substring
tests) are modelled character by character over that representation.  Game
handlers are modelled as pure functions returning the updated state together
with the list of user-visible side effects, listed in the order in which the
source performs them.
-/

/-- Python strings, modelled as lists of Unicode code points. -/
abbrev PyStr := List Nat

/-- Code-point list of a Lean string literal (used only to write concrete
test strings compactly). -/
def str (s : String) : PyStr := s.toList.map Char.toNat

/-- Whitespace code points recognised by Python str.split and str.strip
(ASCII range: space, tab, newline, carriage return, vertical tab, form feed). -/
def isWs (c : Nat) : Bool := c == 32 || c == 9 || c == 10 || c == 13 || c == 11 || c == 12

/-- Python str.lower on a single code point (ASCII letters). -/
def lowerCh (c : Nat) : Nat := if 65 ≤ c ∧ c ≤ 90 then c + 32 else c

/-- Python s.lower(). -/
def pyLower (s : PyStr) : PyStr := s.map lowerCh

/-- Leading-whitespace removal. -/
def lstrip (s : PyStr) : PyStr := s.dropWhile isWs

/-- Python s.strip(): drop whitespace from both ends. -/
def pyStrip (s : PyStr) : PyStr := ((lstrip s).reverse.dropWhile isWs).reverse

/-- Worker for pySplit: walks the string, accumulating the current word in
reverse in the second argument. -/
def splitAux : PyStr → PyStr → List PyStr
  | [], acc => if acc.isEmpty then [] else [acc.reverse]
  | c :: cs, acc =>
    if isWs c then
      if acc.isEmpty then splitAux cs [] else acc.reverse :: splitAux cs []
    else splitAux cs (c :: acc)

/-- Python s.split(): split on whitespace runs, discarding empty pieces. -/
def pySplit (s : PyStr) : List PyStr := splitAux s []

/-- Python " ".join(ws): interleave a single space between the words. -/
def joinSp : List PyStr → PyStr
  | [] => []
  | [w] => w
  | w :: ws => w ++ 32 :: joinSp ws

/-- The normalisation helper shared (verbatim) by both bots: micmate.py has it
as _norm and _norm_word, karaoke_bot.py as _normalise_answer; all three are
" ".join(s.lower().strip().split()). -/
def pyNorm (s : PyStr) : PyStr := joinSp (pySplit (pyStrip (pyLower s)))

/-- Boolean test that a is a leading segment of b (models s.startswith). -/
def begins : PyStr → PyStr → Bool
  | [], _ => true
  | _ :: _, [] => false
  | a :: as, b :: bs => a == b && begins as bs

/-- Boolean test that a occurs contiguously inside b (models Python "a in b"
on strings). -/
def within (a b : PyStr) : Bool :=
  (List.range (b.length + 1)).any (fun i => begins a (b.drop i))

theorem begins_refl (l : PyStr) : begins l l = true := by
  induction l with
  | nil => rfl
  | cons c cs ih => simp [begins, ih]

theorem begins_drop_zero (a b : PyStr) (h : begins a b = true) :
    ∃ t, a ++ t = b := by
  induction a generalizing b with
  | nil => exact ⟨b, rfl⟩
  | cons c cs ih =>
    cases b with
    | nil => simp [begins] at h
    | cons d ds =>
      simp only [begins, Bool.and_eq_true, beq_iff_eq] at h
      obtain ⟨rfl, h2⟩ := h
      obtain ⟨t, ht⟩ := ih ds h2
      exact ⟨t, by simp [ht]⟩

theorem within_self (l : PyStr) : within l l = true := by
  simp only [within, List.any_eq_true]
  exact ⟨0, by simp, by simpa using begins_refl l⟩

theorem within_iff (a b : PyStr) :
    within a b = true ↔ ∃ l r, l ++ a ++ r = b := by
  constructor
  · intro h
    simp only [within, List.any_eq_true, List.mem_range] at h
    obtain ⟨i, hi, hb⟩ := h
    obtain ⟨t, ht⟩ := begins_drop_zero _ _ hb
    refine ⟨b.take i, t, ?_⟩
    rw [List.append_assoc, ht, List.take_append_drop]
  · rintro ⟨l, r, rfl⟩
    simp only [within, List.any_eq_true, List.mem_range]
    refine ⟨l.length, ?_, ?_⟩
    · simp; omega
    · rw [List.append_assoc, List.drop_left]
      induction a with
      | nil => rfl
      | cons c cs ih => simp [begins, ih]

/-- Removal of trailing whitespace. -/
def rstrip (s : PyStr) : PyStr := (s.reverse.dropWhile isWs).reverse

theorem pyStrip_eq_rstrip_lstrip (s : PyStr) : pyStrip s = rstrip (lstrip s) := rfl

theorem splitAux_words (l : List Nat) :
    ∀ acc, (∀ c ∈ acc, isWs c = false) →
      ∀ w ∈ splitAux l acc, w ≠ [] ∧ ∀ c ∈ w, isWs c = false := by
  induction l with
  | nil =>
    intro acc hacc w hw
    by_cases h : acc.isEmpty
    · simp [splitAux, h] at hw
    · simp [splitAux, h] at hw
      subst hw
      constructor
      · simpa [List.isEmpty_iff] using h
      · intro c hc
        exact hacc c (List.mem_reverse.mp hc)
  | cons d ds ih =>
    intro acc hacc w hw
    by_cases hd : isWs d
    · by_cases h : acc.isEmpty
      · simp [splitAux, hd, h] at hw
        exact ih [] (by simp) w hw
      · simp [splitAux, hd, h] at hw
        rcases hw with rfl | hw
        · constructor
          · simpa [List.isEmpty_iff] using h
          · intro c hc
            exact hacc c (List.mem_reverse.mp hc)
        · exact ih [] (by simp) w hw
    · simp [splitAux, hd] at hw
      refine ih (d :: acc) ?_ w hw
      intro c hc
      rcases List.mem_cons.mp hc with rfl | hc
      · simpa using hd
      · exact hacc c hc

theorem pySplit_words (s : PyStr) :
    ∀ w ∈ pySplit s, w ≠ [] ∧ ∀ c ∈ w, isWs c = false :=
  splitAux_words s [] (by simp)

theorem splitAux_word_chunk (w : PyStr) :
    ∀ t acc, (∀ c ∈ w, isWs c = false) →
      splitAux (w ++ t) acc = splitAux t (w.reverse ++ acc) := by
  induction w with
  | nil => intro t acc _; simp
  | cons c cs ih =>
    intro t acc hw
    have hc : isWs c = false := hw c (by simp)
    have h1 : splitAux (c :: (cs ++ t)) acc = splitAux (cs ++ t) (c :: acc) := by
      simp [splitAux, hc]
    rw [List.cons_append, h1, ih t (c :: acc) (fun x hx => hw x (by simp [hx]))]
    simp

theorem splitAux_all_ws (t : List Nat) :
    ∀ acc, (∀ c ∈ t, isWs c = true) → splitAux t acc = splitAux [] acc := by
  induction t with
  | nil => intro acc _; rfl
  | cons c cs ih =>
    intro acc ht
    have hc : isWs c = true := ht c (by simp)
    have hcs : ∀ x ∈ cs, isWs x = true := fun x hx => ht x (by simp [hx])
    by_cases h : acc.isEmpty
    · simp [splitAux, hc, h, ih [] hcs]
    · simp [splitAux, hc, h, ih [] hcs]

theorem splitAux_append_ws (l t : List Nat) (ht : ∀ c ∈ t, isWs c = true) :
    ∀ acc, splitAux (l ++ t) acc = splitAux l acc := by
  induction l with
  | nil => intro acc; simpa using splitAux_all_ws t acc ht
  | cons c cs ih =>
    intro acc
    by_cases hc : isWs c
    · by_cases h : acc.isEmpty <;> simp [splitAux, hc, h, ih]
    · simp [splitAux, hc, ih]

theorem pySplit_lstrip (s : PyStr) : pySplit (lstrip s) = pySplit s := by
  unfold pySplit lstrip
  induction s with
  | nil => rfl
  | cons c cs ih =>
    by_cases hc : isWs c
    · simpa [List.dropWhile_cons, hc, splitAux] using ih
    · simp [List.dropWhile_cons, hc]

theorem pySplit_rstrip (s : PyStr) : pySplit (rstrip s) = pySplit s := by
  have hdecomp : s = rstrip s ++ (s.reverse.takeWhile isWs).reverse := by
    unfold rstrip
    rw [← List.reverse_append, List.takeWhile_append_dropWhile, List.reverse_reverse]
  conv_rhs => rw [hdecomp]
  unfold pySplit
  rw [splitAux_append_ws]
  intro c hc
  exact List.mem_takeWhile_imp (List.mem_reverse.mp hc)

theorem pySplit_pyStrip (s : PyStr) : pySplit (pyStrip s) = pySplit s := by
  rw [pyStrip_eq_rstrip_lstrip, pySplit_rstrip, pySplit_lstrip]

theorem split_joinSp :
    ∀ W : List PyStr, (∀ w ∈ W, w ≠ [] ∧ ∀ c ∈ w, isWs c = false) →
      pySplit (joinSp W) = W
  | [], _ => rfl
  | [w], h => by
    obtain ⟨hne, hw⟩ := h w (by simp)
    show splitAux (joinSp [w]) [] = [w]
    have h1 : joinSp [w] = w ++ [] := by simp [joinSp]
    rw [h1, splitAux_word_chunk w [] [] hw]
    have hacc : (w.reverse ++ ([] : PyStr)).isEmpty = false := by
      simp [List.isEmpty_iff, hne]
    simp [splitAux, hacc, hne]
  | w :: x :: ws, h => by
    obtain ⟨hne, hw⟩ := h w (by simp)
    have hrec : pySplit (joinSp (x :: ws)) = x :: ws :=
      split_joinSp (x :: ws) (fun u hu => h u (by simp [hu]))
    have hrec2 : splitAux (joinSp (x :: ws)) [] = x :: ws := hrec
    show splitAux (joinSp (w :: x :: ws)) [] = w :: x :: ws
    have hjoin : joinSp (w :: x :: ws) = w ++ 32 :: joinSp (x :: ws) := by
      simp [joinSp]
    rw [hjoin, splitAux_word_chunk w (32 :: joinSp (x :: ws)) [] hw]
    have hacc : (w.reverse ++ ([] : PyStr)).isEmpty = false := by
      simp [List.isEmpty_iff, hne]
    simp [splitAux, hacc, hrec2, isWs, hne]

theorem mem_joinSp :
    ∀ (W : List PyStr) (c : Nat), c ∈ joinSp W → c = 32 ∨ ∃ w ∈ W, c ∈ w
  | [], c, h => by simp [joinSp] at h
  | [w], c, h => by
    right
    exact ⟨w, by simp, by simpa [joinSp] using h⟩
  | w :: x :: ws, c, h => by
    have hjoin : joinSp (w :: x :: ws) = w ++ 32 :: joinSp (x :: ws) := by
      simp [joinSp]
    rw [hjoin] at h
    rcases List.mem_append.mp h with hw | hrest
    · exact Or.inr ⟨w, by simp, hw⟩
    · rcases List.mem_cons.mp hrest with rfl | htail
      · exact Or.inl rfl
      · rcases mem_joinSp (x :: ws) c htail with h32 | ⟨u, hu, hc⟩
        · exact Or.inl h32
        · exact Or.inr ⟨u, by simp [List.mem_cons.mp hu], hc⟩

theorem lowerCh_idem (c : Nat) : lowerCh (lowerCh c) = lowerCh c := by
  unfold lowerCh
  by_cases h : 65 ≤ c ∧ c ≤ 90
  · rw [if_pos h, if_neg (by omega)]
  · rw [if_neg h, if_neg h]

theorem lowerCh_fixed_of_mem_pyLower {c : Nat} {s : PyStr} (h : c ∈ pyLower s) :
    lowerCh c = c := by
  obtain ⟨d, _, rfl⟩ := List.mem_map.mp h
  exact lowerCh_idem d

theorem mem_of_mem_pyStrip {c : Nat} {s : PyStr} (h : c ∈ pyStrip s) : c ∈ s := by
  rw [pyStrip_eq_rstrip_lstrip] at h
  unfold rstrip at h
  have h1 : c ∈ (lstrip s).reverse.dropWhile isWs := List.mem_reverse.mp h
  have h2 : c ∈ (lstrip s).reverse := (List.dropWhile_sublist isWs).mem h1
  have h3 : c ∈ lstrip s := List.mem_reverse.mp h2
  exact (List.dropWhile_sublist isWs).mem h3

theorem mem_of_mem_splitAux {c : Nat} :
    ∀ (l : List Nat) (acc w : List Nat), w ∈ splitAux l acc → c ∈ w → c ∈ l ∨ c ∈ acc := by
  intro l
  induction l with
  | nil =>
    intro acc w hw hc
    by_cases h : acc.isEmpty
    · simp [splitAux, h] at hw
    · simp [splitAux, h] at hw
      subst hw
      exact Or.inr (List.mem_reverse.mp hc)
  | cons d ds ih =>
    intro acc w hw hc
    by_cases hd : isWs d
    · by_cases h : acc.isEmpty
      · simp [splitAux, hd, h] at hw
        rcases ih [] w hw hc with h1 | h1
        · exact Or.inl (by simp [h1])
        · simp at h1
      · simp [splitAux, hd, h] at hw
        rcases hw with rfl | hw
        · exact Or.inr (List.mem_reverse.mp hc)
        · rcases ih [] w hw hc with h1 | h1
          · exact Or.inl (by simp [h1])
          · simp at h1
    · simp [splitAux, hd] at hw
      rcases ih (d :: acc) w hw hc with h1 | h1
      · exact Or.inl (by simp [h1])
      · rcases List.mem_cons.mp h1 with rfl | h2
        · exact Or.inl (by simp)
        · exact Or.inr h2

theorem pyLower_fixed_on_pyNorm (s : PyStr) : pyLower (pyNorm s) = pyNorm s := by
  have hfix : ∀ c ∈ pyNorm s, lowerCh c = c := by
    intro c hc
    rcases mem_joinSp _ c hc with rfl | ⟨w, hw, hcw⟩
    · simp [lowerCh]
    · rcases mem_of_mem_splitAux _ [] w hw hcw with hmem | hmem
      · exact lowerCh_fixed_of_mem_pyLower (mem_of_mem_pyStrip hmem)
      · simp at hmem
  unfold pyLower
  have h2 : List.map lowerCh (pyNorm s) = List.map id (pyNorm s) :=
    List.map_congr_left (fun c hc => hfix c hc)
  rw [h2, List.map_id]

theorem pyNorm_idem (s : PyStr) : pyNorm (pyNorm s) = pyNorm s := by
  conv_lhs => rw [pyNorm, pyLower_fixed_on_pyNorm, pySplit_pyStrip]
  rw [show pyNorm s = joinSp (pySplit (pyStrip (pyLower s))) from rfl]
  rw [split_joinSp _ (pySplit_words _)]

/-- Number of words that splitAux will emit: the Bool records whether a word
is currently in progress. -/
def wcnt : Bool → List Nat → Nat
  | b, [] => if b then 1 else 0
  | b, c :: cs => if isWs c then (if b then 1 else 0) + wcnt false cs else wcnt true cs

theorem splitAux_length (l : List Nat) :
    ∀ acc, (splitAux l acc).length = wcnt (!acc.isEmpty) l := by
  induction l with
  | nil =>
    intro acc
    by_cases h : acc.isEmpty <;> simp [splitAux, wcnt, h]
  | cons c cs ih =>
    intro acc
    by_cases hc : isWs c
    · by_cases h : acc.isEmpty
      · simpa [splitAux, wcnt, hc, h] using ih []
      · have := ih []
        simp [splitAux, wcnt, hc, h] at this ⊢
        omega
    · simpa [splitAux, wcnt, hc] using ih (c :: acc)

theorem wcnt_ge (l : List Nat) : ∀ b, (if b then 1 else 0) ≤ wcnt b l := by
  induction l with
  | nil => intro b; simp [wcnt]
  | cons c cs ih =>
    intro b
    have h1 := ih true
    by_cases hc : isWs c
    · cases b <;> simp [wcnt, hc] <;> omega
    · cases b <;> simp [wcnt, hc] at h1 ⊢ <;> omega

theorem wcnt_take (l : List Nat) : ∀ n b, wcnt b (l.take n) ≤ wcnt b l := by
  induction l with
  | nil => intro n b; simp
  | cons c cs ih =>
    intro n b
    cases n with
    | zero =>
      simpa [wcnt] using wcnt_ge (c :: cs) b
    | succ m =>
      by_cases hc : isWs c
      · have := ih m false
        simp [wcnt, hc]
        omega
      · simpa [wcnt, hc] using ih m true

theorem pySplit_take_le (l : List Nat) (n : Nat) :
    (pySplit (l.take n)).length ≤ (pySplit l).length := by
  unfold pySplit
  rw [splitAux_length, splitAux_length]
  exact wcnt_take l n _

/-- norm_list in micmate.generate_song_round (normalise_list in karaoke_bot):
strip each value and keep only the non-empty results. -/
def norm_list (values : List PyStr) : List PyStr :=
  (values.map pyStrip).filter (fun s => !s.isEmpty)

/-- One iteration body of the lyric-safety loop shared by
micmate.generate_song_round and karaoke_bot.generate_song_round:
line_short = " ".join(words[:8]) and, if that still exceeds 90 characters,
line_short = line_short[:90]. -/
def lineShort (line : PyStr) : PyStr :=
  let words := pySplit line
  let ls := joinSp (words.take 8)
  if ls.length > 90 then ls.take 90 else ls

/-- The character-budget loop: total_chars += len(line_short); if total > 90
break; else append.  Shared verbatim by both bots. -/
def buildSafe : List PyStr → Nat → List PyStr
  | [], _ => []
  | line :: rest, total =>
    let ls := lineShort line
    if total + ls.length > 90 then []
    else ls :: buildSafe rest (total + ls.length)

/-- The whole safe_lines computation: lyric_lines = norm_list(lyric_lines)[:3]
followed by the budget loop starting at total_chars = 0. -/
def safeLines (lyric_lines : List PyStr) : List PyStr :=
  buildSafe ((norm_list lyric_lines).take 3) 0

/-- Total number of characters over a list of lines. -/
def sumLens (xs : List PyStr) : Nat := (xs.map List.length).sum

/-- The 8-token truncation alone, with no 90-character cut; this is the
"(token-truncated) input line" notion used by the claim text of C7. -/
def tokenTrunc8 (line : PyStr) : PyStr := joinSp ((pySplit line).take 8)

theorem buildSafe_length_le : ∀ (ls : List PyStr) (t : Nat), (buildSafe ls t).length ≤ ls.length := by
  intro ls
  induction ls with
  | nil => intro t; simp [buildSafe]
  | cons line rest ih =>
    intro t
    by_cases h : t + (lineShort line).length > 90
    · simp [buildSafe, h]
    · simp only [buildSafe, h, if_false, List.length_cons]
      exact Nat.succ_le_succ (ih _)

theorem buildSafe_sum : ∀ (ls : List PyStr) (t : Nat), t ≤ 90 →
    t + sumLens (buildSafe ls t) ≤ 90 := by
  intro ls
  induction ls with
  | nil => intro t ht; simpa [buildSafe, sumLens] using ht
  | cons line rest ih =>
    intro t ht
    by_cases h : t + (lineShort line).length > 90
    · simpa [buildSafe, h, sumLens] using ht
    · have h2 := ih (t + (lineShort line).length) (by omega)
      simp only [buildSafe, h, if_false, sumLens, List.map_cons, List.sum_cons] at h2 ⊢
      omega

theorem buildSafe_struct : ∀ (ls : List PyStr) (t : Nat),
    buildSafe ls t = (ls.map lineShort).take (buildSafe ls t).length ∧
    ((buildSafe ls t).length < ls.length →
      t + sumLens (buildSafe ls t) + ((ls.map lineShort).getD (buildSafe ls t).length []).length > 90) := by
  intro ls
  induction ls with
  | nil => intro t; simp [buildSafe]
  | cons line rest ih =>
    intro t
    by_cases h : t + (lineShort line).length > 90
    · refine ⟨by simp [buildSafe, h], ?_⟩
      intro _
      simpa [buildSafe, h, sumLens] using h
    · obtain ⟨ih1, ih2⟩ := ih (t + (lineShort line).length)
      constructor
      · simp only [buildSafe, h, if_false, List.map_cons, List.length_cons, List.take_succ_cons]
        exact congrArg _ ih1
      · intro hlt
        simp only [buildSafe, h, if_false, List.length_cons, List.map_cons] at hlt ⊢
        have hlt2 : (buildSafe rest (t + (lineShort line).length)).length < rest.length := by
          simpa using hlt
        have := ih2 hlt2
        simp only [sumLens, List.map_cons, List.sum_cons, List.getD_cons_succ] at this ⊢
        omega

theorem pySplit_lineShort_le (line : PyStr) :
    (pySplit (lineShort line)).length ≤ 8 := by
  have hwords : ∀ w ∈ (pySplit line).take 8, w ≠ [] ∧ ∀ c ∈ w, isWs c = false :=
    fun w hw => pySplit_words line w ((List.take_sublist 8 _).mem hw)
  have hsplit : pySplit (joinSp ((pySplit line).take 8)) = (pySplit line).take 8 :=
    split_joinSp _ hwords
  have hlen : ((pySplit line).take 8).length ≤ 8 := by
    simp [List.length_take]
  unfold lineShort
  by_cases h : (joinSp ((pySplit line).take 8)).length > 90
  · simp only [h, if_true]
    calc (pySplit ((joinSp ((pySplit line).take 8)).take 90)).length
        ≤ (pySplit (joinSp ((pySplit line).take 8))).length := pySplit_take_le _ _
      _ ≤ 8 := by rw [hsplit]; exact hlen
  · simp only [h, if_false]
    rw [hsplit]
    exact hlen

theorem lineShort_length_le (line : PyStr) : (lineShort line).length ≤ 90 := by
  unfold lineShort
  by_cases h : (joinSp ((pySplit line).take 8)).length > 90
  · simp only [h, if_true]
    simp [List.length_take]
  · simp only [h, if_false]
    omega

/-- Claim C7 exactly as stated: every kept line has at most 8 tokens, the
summed character count is at most 90, at most 3 lines are kept, and the kept
lines are a prefix of the 8-token-truncated input lines (that is, an
over-budget line is dropped whole rather than truncated mid-line). -/
def claimC7Stmt (lyric_lines : List PyStr) : Prop :=
  (∀ s ∈ safeLines lyric_lines, (pySplit s).length ≤ 8) ∧
  sumLens (safeLines lyric_lines) ≤ 90 ∧
  (safeLines lyric_lines).length ≤ 3 ∧
  ∃ t, safeLines lyric_lines ++ t = ((norm_list lyric_lines).take 3).map tokenTrunc8

/-- C7 fails as stated: a single 100-character word is truncated mid-line to
90 characters and kept, so the kept lines are not a prefix of the
token-truncated input lines. -/
theorem C7_counterexample : ¬ claimC7Stmt [List.replicate 100 97] := by
  intro h
  obtain ⟨-, -, -, t, ht⟩ := h
  have h1 : safeLines [List.replicate 100 97] = [List.replicate 90 97] := by rfl
  have h2 : ((norm_list [List.replicate 100 97]).take 3).map tokenTrunc8
      = [List.replicate 100 97] := by rfl
  rw [h1, h2] at ht
  simp only [List.cons_append, List.nil_append] at ht
  have hx : List.replicate 90 (97 : Nat) = List.replicate 100 97 :=
    (List.cons_eq_cons.mp ht).1
  have hlen : (List.replicate 90 (97 : Nat)).length = (List.replicate 100 (97 : Nat)).length := by
    rw [hx]
  simp at hlen

/-- C7 amended: each kept line has at most 8 tokens and at most 90 characters,
the summed character count is at most 90, at most 3 lines are kept, the kept
lines are a prefix of the token-truncated-then-90-character-truncated
normalised input lines (a single over-long line is cut mid-line to 90
characters, not dropped), and the first processed line whose char-truncated
form would push the running total past 90 is dropped together with every line
after it. -/
theorem C7_lyric_truncation (lyric_lines : List PyStr) :
    (∀ s ∈ safeLines lyric_lines, (pySplit s).length ≤ 8 ∧ s.length ≤ 90) ∧
    sumLens (safeLines lyric_lines) ≤ 90 ∧
    (safeLines lyric_lines).length ≤ 3 ∧
    (∃ t, safeLines lyric_lines ++ t = ((norm_list lyric_lines).take 3).map lineShort) ∧
    ((safeLines lyric_lines).length < ((norm_list lyric_lines).take 3).length →
      sumLens (safeLines lyric_lines) +
        ((((norm_list lyric_lines).take 3).map lineShort).getD (safeLines lyric_lines).length []).length > 90) := by
  obtain ⟨hpre, hbound⟩ := buildSafe_struct ((norm_list lyric_lines).take 3) 0
  refine ⟨?_, ?_, ?_, ?_, ?_⟩
  · intro s hs
    rw [show safeLines lyric_lines = buildSafe ((norm_list lyric_lines).take 3) 0 from rfl,
      hpre] at hs
    have hs2 : s ∈ ((norm_list lyric_lines).take 3).map lineShort :=
      (List.take_sublist _ _).mem hs
    obtain ⟨line, _, rfl⟩ := List.mem_map.mp hs2
    exact ⟨pySplit_lineShort_le line, lineShort_length_le line⟩
  · simpa using buildSafe_sum ((norm_list lyric_lines).take 3) 0 (by omega)
  · calc (safeLines lyric_lines).length
        ≤ ((norm_list lyric_lines).take 3).length := buildSafe_length_le _ _
      _ ≤ 3 := by simp [List.length_take]
  · have hpre2 : safeLines lyric_lines =
        List.take (safeLines lyric_lines).length (((norm_list lyric_lines).take 3).map lineShort) := hpre
    refine ⟨(((norm_list lyric_lines).take 3).map lineShort).drop (safeLines lyric_lines).length, ?_⟩
    nth_rewrite 1 [hpre2]
    exact List.take_append_drop _ _
  · intro hlt
    have := hbound hlt
    simpa using this

namespace MicMate

/-- The SongRound dataclass of micmate.py. -/
structure SongRound where
  song_title : PyStr
  artist : PyStr
  lyric_lines : List PyStr
  acceptable_titles : List PyStr
  acceptable_artists : List PyStr
  hints : List PyStr := []
deriving DecidableEq

/-- is_correct_guess from micmate.py (lines 70-93).  The Python locals
g = _norm(guess), title_norm = _norm(song.song_title) and
artist_norm = _norm(song.artist) are inlined as pyNorm applications; the
branch structure follows the source: (1) exact membership in the acceptable
variation lists, (2) exact equality with the normalised title or artist,
(3) the guess contains BOTH the full title and the full artist (both
non-empty, per Python truthiness of title_norm and artist_norm). -/
def is_correct_guess (song : SongRound) (guess : PyStr) : Bool :=
  if (pyNorm guess).isEmpty then false
  else if pyNorm guess ∈ song.acceptable_titles ∨ pyNorm guess ∈ song.acceptable_artists then true
  else if pyNorm guess = pyNorm song.song_title ∨ pyNorm guess = pyNorm song.artist then true
  else if ¬(pyNorm song.song_title).isEmpty ∧ ¬(pyNorm song.artist).isEmpty ∧
      within (pyNorm song.song_title) (pyNorm guess) = true ∧
      within (pyNorm song.artist) (pyNorm guess) = true then true
  else false

/-- C1 (amended): the strict matcher accepts exactly (a) membership in an
accepted-variant list, (b) equality with the normalised title or artist, or
(c) containment of both the full (non-empty) normalised title and artist; and
a guess that is NOT an accepted variant and contains neither the full
normalised title nor the full normalised artist as a substring is rejected —
the "not an accepted variant" condition is the amendment forced by the
counterexample. -/
theorem C1_strict_matcher (song : SongRound) (guess : PyStr) :
    (is_correct_guess song guess = true ↔
      (pyNorm guess ≠ [] ∧
        (pyNorm guess ∈ song.acceptable_titles ∨ pyNorm guess ∈ song.acceptable_artists ∨
         pyNorm guess = pyNorm song.song_title ∨ pyNorm guess = pyNorm song.artist ∨
         (pyNorm song.song_title ≠ [] ∧ pyNorm song.artist ≠ [] ∧
          within (pyNorm song.song_title) (pyNorm guess) = true ∧
          within (pyNorm song.artist) (pyNorm guess) = true)))) ∧
    (pyNorm guess ∉ song.acceptable_titles → pyNorm guess ∉ song.acceptable_artists →
     within (pyNorm song.song_title) (pyNorm guess) = false →
     within (pyNorm song.artist) (pyNorm guess) = false →
     is_correct_guess song guess = false) := by
  have hiff : is_correct_guess song guess = true ↔
      (pyNorm guess ≠ [] ∧
        (pyNorm guess ∈ song.acceptable_titles ∨ pyNorm guess ∈ song.acceptable_artists ∨
         pyNorm guess = pyNorm song.song_title ∨ pyNorm guess = pyNorm song.artist ∨
         (pyNorm song.song_title ≠ [] ∧ pyNorm song.artist ≠ [] ∧
          within (pyNorm song.song_title) (pyNorm guess) = true ∧
          within (pyNorm song.artist) (pyNorm guess) = true))) := by
    unfold is_correct_guess
    split_ifs with h0 h1 h2 h3
    · simp only [List.isEmpty_iff] at h0
      simp [h0]
    · simp only [List.isEmpty_iff] at h0
      simp only [true_iff]
      refine ⟨h0, ?_⟩
      rcases h1 with h | h
      · exact Or.inl h
      · exact Or.inr (Or.inl h)
    · simp only [List.isEmpty_iff] at h0
      constructor
      · intro _
        refine ⟨h0, ?_⟩
        rcases h2 with h | h
        · exact Or.inr (Or.inr (Or.inl h))
        · exact Or.inr (Or.inr (Or.inr (Or.inl h)))
      · intro _; rfl
    · simp only [List.isEmpty_iff] at h0 h3
      constructor
      · intro _
        refine ⟨h0, ?_⟩
        exact Or.inr (Or.inr (Or.inr (Or.inr ⟨h3.1, h3.2.1, h3.2.2.1, h3.2.2.2⟩)))
      · intro _; rfl
    · simp only [List.isEmpty_iff, not_and, not_or] at h0 h1 h2 h3
      constructor
      · intro h; cases h
      · rintro ⟨hne, hcase⟩
        rcases hcase with h | h | h | h | ⟨ht, ha, hw1, hw2⟩
        · exact absurd h h1.1
        · exact absurd h h1.2
        · exact absurd h h2.1
        · exact absurd h h2.2
        · exact absurd hw2 (by simpa using h3 ht ha hw1)
  refine ⟨hiff, ?_⟩
  intro hm1 hm2 hw1 hw2
  cases hres : is_correct_guess song guess
  · rfl
  · exfalso
    obtain ⟨hne, hcase⟩ := hiff.mp hres
    rcases hcase with h | h | h | h | ⟨_, _, h5, h6⟩
    · exact hm1 h
    · exact hm2 h
    · rw [h] at hw1
      rw [within_self] at hw1
      exact Bool.true_eq_false.mp hw1 |>.elim
    · rw [h] at hw2
      rw [within_self] at hw2
      exact Bool.true_eq_false.mp hw2 |>.elim
    · rw [h5] at hw1
      exact Bool.true_eq_false.mp hw1 |>.elim

/-- Concrete round for the C1 counterexample: the generator's accepted-artist
variants may legitimately contain a short form of the artist name (the prompt
asks for "common short name"), stored in normalised form. -/
def songC1 : SongRound :=
  { song_title := str ("All I Want"), artist := str ("Mariah Carey"),
    lyric_lines := [str ("lyric")], acceptable_titles := [str ("all i want")],
    acceptable_artists := [str ("mariah carey"), str ("mariah")], hints := [] }

/-- C1 as stated is false: the guess "mariah" contains only a proper substring
of the normalised artist "mariah carey" (and neither the full normalised
artist nor the full normalised title), yet the verdict is true, because the
guess equals an accepted-artist variant. -/
theorem C1_counterexample :
    within (pyNorm songC1.artist) (pyNorm (str ("mariah"))) = false ∧
    within (pyNorm songC1.song_title) (pyNorm (str ("mariah"))) = false ∧
    pyNorm (str ("mariah")) ≠ pyNorm songC1.artist ∧
    pyNorm (str ("mariah")) ≠ pyNorm songC1.song_title ∧
    within (pyNorm (str ("mariah"))) (pyNorm songC1.artist) = true ∧
    is_correct_guess songC1 (str ("mariah")) = true := by
  decide

/-- Witness for C1_strict_matcher at a concrete input: "banana" is rejected. -/
theorem C1_witness :
    pyNorm (str ("banana")) ∉ songC1.acceptable_titles ∧
    pyNorm (str ("banana")) ∉ songC1.acceptable_artists ∧
    within (pyNorm songC1.song_title) (pyNorm (str ("banana"))) = false ∧
    within (pyNorm songC1.artist) (pyNorm (str ("banana"))) = false ∧
    is_correct_guess songC1 (str ("banana")) = false :=
  ⟨by decide, by decide, by decide, by decide,
    (C1_strict_matcher songC1 (str ("banana"))).2 (by decide) (by decide) (by decide) (by decide)⟩

/-- The acceptance test of the anti-repeat loop in play_single_level
(lines 355-378): title_key = _norm(candidate.song_title);
same_as_last = last_title_norm and title_key == last_title_norm (with Python
truthiness: an empty last title makes same_as_last falsy);
seen_before = title_key in used_titles; accept when neither holds. -/
def candidateOK (used : List PyStr) (last_song : Option SongRound) (c : SongRound) : Bool :=
  let same_as_last :=
    match last_song with
    | none => false
    | some ls => !(pyNorm ls.song_title).isEmpty && pyNorm c.song_title == pyNorm ls.song_title
  !same_as_last && !(decide (pyNorm c.song_title ∈ used))

/-- The while-loop of play_single_level: attempts counts completed generator
calls (the candidate of iteration a is gen a); when the 25-attempt ceiling is
reached without an acceptable candidate, the last candidate (held in prev) is
taken. -/
def chooseSong (gen : Nat → SongRound) (used : List PyStr) (last_song : Option SongRound)
    (attempts : Nat) (prev : SongRound) : SongRound :=
  if h : attempts < 25 then
    if candidateOK used last_song (gen attempts) then gen attempts
    else chooseSong gen used last_song (attempts + 1) (gen attempts)
  else prev
termination_by 25 - attempts
decreasing_by simp_wf; omega

theorem chooseSong_spec (gen : Nat → SongRound) (used : List PyStr) (last_song : Option SongRound) :
    ∀ n a prev, 25 - a = n → a < 25 →
      (∃ j, a ≤ j ∧ j < 25 ∧ candidateOK used last_song (gen j) = true ∧
        (∀ k, a ≤ k → k < j → candidateOK used last_song (gen k) = false) ∧
        chooseSong gen used last_song a prev = gen j)
      ∨ ((∀ j, a ≤ j → j < 25 → candidateOK used last_song (gen j) = false) ∧
        chooseSong gen used last_song a prev = gen 24) := by
  intro n
  induction n with
  | zero => intro a prev hn ha; omega
  | succ m ih =>
    intro a prev hn ha
    by_cases hok : candidateOK used last_song (gen a) = true
    · left
      refine ⟨a, Nat.le_refl a, ha, hok, by omega, ?_⟩
      rw [chooseSong, dif_pos ha, if_pos hok]
    · have hstep : chooseSong gen used last_song a prev
          = chooseSong gen used last_song (a + 1) (gen a) := by
        rw [chooseSong, dif_pos ha, if_neg hok]
      by_cases hend : a + 1 < 25
      · rcases ih (a + 1) (gen a) (by omega) hend with
          ⟨j, hj1, hj2, hj3, hj4, hj5⟩ | ⟨hall, heq⟩
        · left
          refine ⟨j, by omega, hj2, hj3, ?_, by rw [hstep]; exact hj5⟩
          intro k hk1 hk2
          rcases Nat.eq_or_lt_of_le hk1 with rfl | hk3
          · simpa using hok
          · exact hj4 k (by omega) hk2
        · right
          refine ⟨?_, by rw [hstep]; exact heq⟩
          intro j hj1 hj2
          rcases Nat.eq_or_lt_of_le hj1 with rfl | hj3
          · simpa using hok
          · exact hall j (by omega) hj2
      · have ha24 : a = 24 := by omega
        right
        constructor
        · intro j hj1 hj2
          have : j = a := by omega
          subst this
          simpa using hok
        · rw [hstep, chooseSong, dif_neg (by omega)]
          rw [ha24]

theorem candidateOK_iff (used : List PyStr) (last_song : Option SongRound) (c : SongRound)
    (hlast : ∀ t, last_song = some t → pyNorm t.song_title ≠ []) :
    candidateOK used last_song c = true ↔
      (pyNorm c.song_title ∉ used ∧
        ∀ t, last_song = some t → pyNorm c.song_title ≠ pyNorm t.song_title) := by
  cases last_song with
  | none => simp [candidateOK]
  | some ls =>
    have hne : (pyNorm ls.song_title).isEmpty = false := by
      simpa [List.isEmpty_iff] using hlast ls rfl
    simp only [candidateOK, hne, Bool.not_true, Bool.true_and, Bool.and_eq_true,
      Bool.not_eq_true', decide_eq_false_iff_not, Bool.not_eq_true, Bool.not_and]
    constructor
    · rintro ⟨h1, h2⟩
      refine ⟨by simpa using h2, ?_⟩
      rintro t ht
      injection ht with ht2
      subst ht2
      simpa using h1
    · rintro ⟨h1, h2⟩
      refine ⟨?_, by simpa using h1⟩
      have := h2 ls rfl
      simpa using this

/-- C2: for every used-title set, previous round and candidate stream, the
anti-repeat loop returns the first of the 25 generated candidates whose
normalised title neither equals the previous round's normalised title nor
occurs in the used-title set, and returns the 25th candidate when all 25
collide.  Hypothesis: the previous round, when present, has a non-empty
normalised title (guaranteed for rounds produced by generate_song_round). -/
theorem C2_anti_repeat (gen : Nat → SongRound) (used : List PyStr) (last_song : Option SongRound)
    (hlast : ∀ t, last_song = some t → pyNorm t.song_title ≠ []) :
    (∃ j, j < 25 ∧
      (pyNorm (gen j).song_title ∉ used ∧
        ∀ t, last_song = some t → pyNorm (gen j).song_title ≠ pyNorm t.song_title) ∧
      (∀ k, k < j →
        ¬(pyNorm (gen k).song_title ∉ used ∧
          ∀ t, last_song = some t → pyNorm (gen k).song_title ≠ pyNorm t.song_title)) ∧
      chooseSong gen used last_song 0 (gen 0) = gen j)
    ∨ ((∀ j, j < 25 →
        ¬(pyNorm (gen j).song_title ∉ used ∧
          ∀ t, last_song = some t → pyNorm (gen j).song_title ≠ pyNorm t.song_title)) ∧
      chooseSong gen used last_song 0 (gen 0) = gen 24) := by
  rcases chooseSong_spec gen used last_song 25 0 (gen 0) rfl (by omega) with
    ⟨j, _, hj2, hj3, hj4, hj5⟩ | ⟨hall, heq⟩
  · left
    refine ⟨j, hj2, (candidateOK_iff used last_song (gen j) hlast).mp hj3, ?_, hj5⟩
    intro k hk
    intro hgood
    have := (candidateOK_iff used last_song (gen k) hlast).mpr hgood
    rw [hj4 k (by omega) hk] at this
    exact Bool.false_ne_true this
  · right
    refine ⟨?_, heq⟩
    intro j hj hgood
    have := (candidateOK_iff used last_song (gen j) hlast).mpr hgood
    rw [hall j (by omega) hj] at this
    exact Bool.false_ne_true this

/-- Witness for C2_anti_repeat: a constant generator stream whose title is
already in the used set collides 25 times, so the 25th candidate is taken. -/
theorem C2_witness :
    (∃ j, j < 25 ∧
      (pyNorm ((fun _ : Nat => songC1) j).song_title ∉ [str ("all i want")] ∧
        ∀ t, (none : Option SongRound) = some t →
          pyNorm ((fun _ : Nat => songC1) j).song_title ≠ pyNorm t.song_title) ∧
      (∀ k, k < j →
        ¬(pyNorm ((fun _ : Nat => songC1) k).song_title ∉ [str ("all i want")] ∧
          ∀ t, (none : Option SongRound) = some t →
            pyNorm ((fun _ : Nat => songC1) k).song_title ≠ pyNorm t.song_title)) ∧
      chooseSong (fun _ => songC1) [str ("all i want")] none 0 ((fun _ : Nat => songC1) 0)
        = (fun _ : Nat => songC1) j)
    ∨ ((∀ j, j < 25 →
        ¬(pyNorm ((fun _ : Nat => songC1) j).song_title ∉ [str ("all i want")] ∧
          ∀ t, (none : Option SongRound) = some t →
            pyNorm ((fun _ : Nat => songC1) j).song_title ≠ pyNorm t.song_title)) ∧
      chooseSong (fun _ => songC1) [str ("all i want")] none 0 ((fun _ : Nat => songC1) 0)
        = (fun _ : Nat => songC1) 24) :=
  C2_anti_repeat (fun _ => songC1) [str ("all i want")] none (by intro t ht; cases ht)

/-- A structurally parsed generator response: none models a JSON parse
failure, and the fields are the parsed dict values (an absent key is the
empty value, matching Python falsiness of data.get(...)). -/
structure GenCandidate where
  song_title : PyStr
  artist : PyStr
  lyric_lines : List PyStr
  hints : List PyStr
  acceptable_title_answers : List PyStr
  acceptable_artist_answers : List PyStr
deriving DecidableEq

/-- The validation test of the retry loop in generate_song_round (lines
222-257): the JSON parse must succeed and song_title and lyric_lines must
both be truthy. -/
def respValid : Option GenCandidate → Bool
  | none => false
  | some c => !c.song_title.isEmpty && !c.lyric_lines.isEmpty

/-- The attempts_json < 5 loop: the first valid response among the five, if
any (the attempt of iteration i reads response i). -/
def findValidResp (resp : Nat → Option GenCandidate) (i : Nat) : Option GenCandidate :=
  if i < 5 then
    if respValid (resp i) then resp i else findValidResp resp (i + 1)
  else none
termination_by 5 - i
decreasing_by simp_wf; omega

/-- generate_song_round from micmate.py (lines 96-320), with the OpenAI call
abstracted as the stream resp of parsed responses.  After the retry loop,
normalisation runs: song_title/artist stripped, artist defaulted to
"Unknown", lyric lines through norm_list / take 3 / the 8-word-90-char loop
(safeLines), hints through norm_list / take 3, acceptable answers through
norm_list and pyNorm.  A missing title or empty lyric list after
normalisation raises, as does exhausting the 5 attempts; errors are
Except.error. -/
def generate_song_round (resp : Nat → Option GenCandidate) : Except Unit SongRound :=
  match findValidResp resp 0 with
  | none => .error ()
  | some data =>
    if (pyStrip data.song_title).isEmpty ∨ (safeLines data.lyric_lines).isEmpty then .error ()
    else .ok { song_title := pyStrip data.song_title,
               artist := if (pyStrip data.artist).isEmpty then str ("Unknown")
                         else pyStrip data.artist,
               lyric_lines := safeLines data.lyric_lines,
               acceptable_titles := (norm_list data.acceptable_title_answers).map pyNorm,
               acceptable_artists := (norm_list data.acceptable_artist_answers).map pyNorm,
               hints := (norm_list data.hints).take 3 }

/-- User-visible side effects of micmate's play_single_level / run_mic_game /
use_hint, in source order. -/
inductive MEv
  | apology
  | roundEmbed
  | noPassesNotice
  | passUsedMsg
  | reactWin
  | winAnnounce
  | scoreIncrement (uid : Nat)
  | skipEmbed
  | timeoutEmbed
  | rankingPost (final : Bool)
  | editDisplay
  | hintMessage
  | noticeMsg
deriving DecidableEq

/-- Messages arriving in the channel while a round is open. -/
inductive MsgIn
  | passCmd
  | guess (uid : Nat) (text : PyStr)
deriving DecidableEq

/-- The guess-waiting loop of play_single_level (lines 411-453): messages are
processed in arrival order until a correct guess, an accepted pass, or — when
the list is exhausted, modelling the deadline — a timeout.  Returns
(winner, passed flag, updated passes counter, emitted events). -/
def playRound (song : SongRound) : List MsgIn → Nat → (Option Nat × Bool × Nat × List MEv)
  | [], passes => (none, false, passes, [])
  | .passCmd :: rest, passes =>
    if passes ≥ 3 then
      let r := playRound song rest passes
      (r.1, r.2.1, r.2.2.1, .noPassesNotice :: r.2.2.2)
    else (none, true, passes + 1, [.passUsedMsg])
  | .guess uid text :: rest, passes =>
    if is_correct_guess song text then (some uid, false, passes, [])
    else playRound song rest passes

/-- Result of one level. -/
structure LevelResult where
  winner_id : Option Nat
  song : Option SongRound
  passed : Bool
  scores : Nat → Nat
  passes_used : Nat
  events : List MEv

/-- play_single_level (lines 323-504): on a generation error, the apology is
sent and (None, None, False) returned with scores untouched; otherwise the
round embed is posted, the wait loop runs, and the outcome block follows the
source order — on a win: reaction, answer embed, and only then the score
increment (modelled by the position of the scoreIncrement event). -/
def playSingleLevel (gen : Except Unit SongRound) (msgs : List MsgIn)
    (scores : Nat → Nat) (passes : Nat) : LevelResult :=
  match gen with
  | .error _ =>
    { winner_id := none, song := none, passed := false,
      scores := scores, passes_used := passes, events := [.apology] }
  | .ok song =>
    let r := playRound song msgs passes
    match r.1 with
    | some uid =>
      { winner_id := some uid, song := some song, passed := false,
        scores := fun u => if u = uid then scores u + 1 else scores u,
        passes_used := r.2.2.1,
        events := .roundEmbed :: r.2.2.2 ++ [.reactWin, .winAnnounce, .scoreIncrement uid] }
    | none =>
      if r.2.1 then
        { winner_id := none, song := some song, passed := true,
          scores := scores, passes_used := r.2.2.1,
          events := .roundEmbed :: r.2.2.2 ++ [.skipEmbed] }
      else
        { winner_id := none, song := some song, passed := false,
          scores := scores, passes_used := r.2.2.1,
          events := .roundEmbed :: r.2.2.2 ++ [.timeoutEmbed] }

/-- Result of a whole session. -/
structure SessionResult where
  scores : Nat → Nat
  events : List MEv

/-- The while-loop of run_mic_game (lines 567-624), driven by a list of
per-level inputs (generation outcome and channel messages); the loop also
stops when that list is exhausted, modelling an external stop.  The
used-title set and last song only feed generation, which is already an input
here, so they are not tracked. -/
def runMicGame (total_levels : Nat) :
    List (Except Unit SongRound × List MsgIn) → (Nat → Nat) → Nat → Nat → SessionResult
  | [], scores, _, _ => { scores := scores, events := [] }
  | (gen, msgs) :: rest, scores, passes, level =>
    let r := playSingleLevel gen msgs scores passes
    match r.song with
    | none => { scores := r.scores, events := r.events }
    | some _ =>
      if r.winner_id = none ∧ r.passed = false then
        { scores := r.scores, events := r.events ++ [.rankingPost true] }
      else if 0 < total_levels ∧ total_levels ≤ level then
        { scores := r.scores, events := r.events ++ [.rankingPost false] }
      else
        let next := runMicGame total_levels rest r.scores r.passes_used (level + 1)
        { scores := next.scores, events := r.events ++ [.rankingPost false] ++ next.events }

/-- C3: when all five generation attempts fail (JSON parse failure or missing
or empty song_title or lyric_lines), generate_song_round errors rather than
substituting a fallback; play_single_level then sends the user-visible
apology and returns (None, None, False) with the score map untouched; and
run_mic_game ends the session right there, its score map exactly as before
the failed round (micmate sessions keep no streak counter; the cited
caller is micmate's run_mic_game). -/
theorem C3_generation_failure :
    (∀ resp : Nat → Option GenCandidate,
      (∀ i, i < 5 → respValid (resp i) = false) →
      generate_song_round resp = .error ()) ∧
    (∀ (msgs : List MsgIn) (scores : Nat → Nat) (passes : Nat),
      playSingleLevel (.error ()) msgs scores passes =
        { winner_id := none, song := none, passed := false,
          scores := scores, passes_used := passes, events := [.apology] }) ∧
    (∀ (tl : Nat) (msgs : List MsgIn) (rest : List (Except Unit SongRound × List MsgIn))
        (scores : Nat → Nat) (passes level : Nat),
      runMicGame tl ((.error (), msgs) :: rest) scores passes level =
        { scores := scores, events := [.apology] }) := by
  refine ⟨?_, ?_, ?_⟩
  · intro resp hbad
    have hnone : ∀ n i, 5 - i = n → findValidResp resp i = none := by
      intro n
      induction n with
      | zero =>
        intro i hi
        rw [findValidResp, if_neg (by omega)]
      | succ m ih =>
        intro i hi
        rw [findValidResp, if_pos (by omega : i < 5),
          if_neg (by simp [hbad i (by omega)]), ih (i + 1) (by omega)]
    unfold generate_song_round
    rw [hnone 5 0 rfl]
  · intro msgs scores passes
    rfl
  · intro tl msgs rest scores passes level
    rfl

/-- Witness for C3_generation_failure: a generator that always fails to
parse. -/
theorem C3_witness : generate_song_round (fun _ => none) = .error () :=
  C3_generation_failure.1 (fun _ => none) (fun _ _ => rfl)

/-- Channel-keyed state touched by micmate's hint and pass handlers
(active_games, current_song, hints_used, passes_used, the session's scores). -/
structure MicState where
  activeGame : Bool
  song : Option SongRound
  hints_used : Nat
  passes_used : Nat
  scores : Nat → Nat

/-- use_hint from micmate.py (lines 638-678): rejected with a notice when no
game or no round is active or when 3 hints were already used; otherwise the
counter is incremented and the hint text — a pre-generated hint when index
used < len(hints), else the structural title hint — is sent as a NEW channel
message (no display-message edit exists in micmate). -/
def use_hint (s : MicState) : MicState × List MEv :=
  if !s.activeGame then (s, [.noticeMsg])
  else
    match s.song with
    | none => (s, [.noticeMsg])
    | some _ =>
      if s.hints_used ≥ 3 then (s, [.noticeMsg])
      else ({ s with hints_used := s.hints_used + 1 }, [.hintMessage])

/-- The m.pass branch of play_single_level's wait loop (lines 435-446) as a
state transformer: rejected with a notice at 3 passes, else incremented. -/
def passSignal (s : MicState) : MicState × List MEv :=
  if s.passes_used ≥ 3 then (s, [.noPassesNotice])
  else ({ s with passes_used := s.passes_used + 1 }, [.passUsedMsg])

/-- The per-game counter reset performed by run_mic_game on entry
(lines 558-561). -/
def initState (song : Option SongRound) (scores : Nat → Nat) : MicState :=
  { activeGame := true, song := song, hints_used := 0, passes_used := 0, scores := scores }

/-- States reachable from a fresh game by hint signals, pass signals and new
rounds (a new round replaces current_song but keeps the per-game counters). -/
inductive Reach : MicState → Prop
  | init (song : Option SongRound) (scores : Nat → Nat) : Reach (initState song scores)
  | hint (s : MicState) : Reach s → Reach (use_hint s).1
  | pass (s : MicState) : Reach s → Reach (passSignal s).1
  | newRound (s : MicState) (r : SongRound) : Reach s → Reach { s with song := some r }

theorem reach_budget {s : MicState} (h : Reach s) :
    s.hints_used ≤ 3 ∧ s.passes_used ≤ 3 := by
  induction h with
  | init song scores => exact ⟨by simp [initState], by simp [initState]⟩
  | hint s hs ih =>
    obtain ⟨ih1, ih2⟩ := ih
    by_cases h1 : s.activeGame = false
    · simp [use_hint, h1]
      omega
    · have h1t : s.activeGame = true := by
        cases hb : s.activeGame
        · exact absurd hb h1
        · rfl
      cases hsong : s.song with
      | none =>
        simp [use_hint, h1t, hsong]
        omega
      | some r =>
        by_cases h2 : s.hints_used ≥ 3
        · simp [use_hint, h1t, hsong, h2]
          omega
        · simp [use_hint, h1t, hsong, h2]
          omega
  | pass s hs ih =>
    obtain ⟨ih1, ih2⟩ := ih
    by_cases h2 : s.passes_used ≥ 3
    · simp [passSignal, h2]
      omega
    · simp [passSignal, h2]
      omega
  | newRound s r hs ih => simpa using ih

/-- The DoodleRound dataclass from micmate.py (started_at, a wall-clock
value, is not modelled). -/
structure DoodleRound where
  word : PyStr
  acceptable_answers : List PyStr
  channel_id : Nat
  message_id : Option Nat := none
  time_limit : Nat := 30
  winner_id : Option Nat := none
deriving DecidableEq

/-- Length of the common run at the heads of a and b. -/
def runLen : PyStr → PyStr → Nat
  | a :: as, b :: bs => if a = b then runLen as bs + 1 else 0
  | _, _ => 0

/-- Model of difflib.SequenceMatcher.find_longest_match with no junk (the
bots pass isjunk=None, and autojunk only affects sequences of 200 or more
elements, far beyond this game's strings): the longest common contiguous
block, at the earliest position in a and, for that, the earliest in b. -/
def flm (a b : PyStr) : Nat × Nat × Nat :=
  (List.range a.length).foldl (fun best i =>
    (List.range b.length).foldl (fun best j =>
      let k := runLen (a.drop i) (b.drop j)
      if k > best.2.2 then (i, j, k) else best) best) (0, 0, 0)

/-- Total size of the matching blocks (the matches count M of
SequenceMatcher.ratio), by the recursive block decomposition of
get_matching_blocks; the fuel bounds recursion depth and
a.length + b.length + 1 always suffices. -/
def matchTotal : Nat → PyStr → PyStr → Nat
  | 0, _, _ => 0
  | fuel + 1, a, b =>
    let t := flm a b
    if t.2.2 = 0 then 0
    else matchTotal fuel (a.take t.1) (b.take t.2.1) + t.2.2 +
      matchTotal fuel (a.drop (t.1 + t.2.2)) (b.drop (t.2.1 + t.2.2))

/-- The matches count M for the two full strings. -/
def seqMatches (a b : PyStr) : Nat := matchTotal (a.length + b.length + 1) a b

/-- ratio() >= 0.8 in exact rational arithmetic: 2M/(la+lb) >= 4/5 iff
5M >= 2(la+lb); for two empty strings difflib returns 1.0 and both sides
hold. -/
def fuzzyOK (a b : PyStr) : Bool :=
  decide (5 * seqMatches a b ≥ 2 * (a.length + b.length))

/-- _is_correct_doodle_guess from micmate.py (lines 864-890), with the locals
inlined: g = _norm_word(guess), acc the normalised truthy acceptable answers,
base = _norm_word(round.word); the four branches follow the source. -/
def is_correct_doodle_guess (guess : PyStr) (round_obj : DoodleRound) : Bool :=
  if (pyNorm guess).isEmpty then false
  else if pyNorm guess ∈ (round_obj.acceptable_answers.filter (fun a => !a.isEmpty)).map pyNorm
    then true
  else if pyNorm guess = pyNorm round_obj.word then true
  else if pyNorm round_obj.word ∈ pySplit (pyNorm guess) then true
  else fuzzyOK (pyNorm guess) (pyNorm round_obj.word)

/-- C10: for every doodle round and guess with non-empty normalised content,
the doodle matcher accepts exactly when the normalised guess equals an
accepted variant, equals the normalised base word, contains the base word as
a whole whitespace-separated token, or has SequenceMatcher ratio at least 0.8
against the base word. -/
theorem C10_doodle_matcher (round_obj : DoodleRound) (guess : PyStr)
    (hg : pyNorm guess ≠ []) :
    is_correct_doodle_guess guess round_obj = true ↔
      (pyNorm guess ∈ (round_obj.acceptable_answers.filter (fun a => !a.isEmpty)).map pyNorm ∨
       pyNorm guess = pyNorm round_obj.word ∨
       pyNorm round_obj.word ∈ pySplit (pyNorm guess) ∨
       5 * seqMatches (pyNorm guess) (pyNorm round_obj.word) ≥
         2 * ((pyNorm guess).length + (pyNorm round_obj.word).length)) := by
  unfold is_correct_doodle_guess
  rw [if_neg (by simpa [List.isEmpty_iff] using hg)]
  split_ifs with h1 h2 h3
  · simp [h1]
  · simp [h2]
  · simp [h3]
  · simp [fuzzyOK, h1, h2, h3]

/-- Concrete round for the C10 witness. -/
def doodleC10 : DoodleRound :=
  { word := str ("umbrella"), acceptable_answers := [str ("umbrella"), str ("parasol")],
    channel_id := 1 }

/-- Witness for C10_doodle_matcher: the misspelling "umbrela" against the
word "umbrella". -/
theorem C10_witness :
    pyNorm (str ("umbrela")) ≠ [] ∧
    (is_correct_doodle_guess (str ("umbrela")) doodleC10 = true ↔
      (pyNorm (str ("umbrela")) ∈
        (doodleC10.acceptable_answers.filter (fun a => !a.isEmpty)).map pyNorm ∨
       pyNorm (str ("umbrela")) = pyNorm doodleC10.word ∨
       pyNorm doodleC10.word ∈ pySplit (pyNorm (str ("umbrela"))) ∨
       5 * seqMatches (pyNorm (str ("umbrela"))) (pyNorm doodleC10.word) ≥
         2 * ((pyNorm (str ("umbrela"))).length + (pyNorm doodleC10.word).length))) :=
  ⟨by decide, C10_doodle_matcher doodleC10 (str ("umbrela")) (by decide)⟩

end MicMate

namespace Karaoke

/-- The KaraokeRound dataclass of karaoke_bot.py (ends_at, a wall-clock
value, is not modelled). -/
structure KaraokeRound where
  channel_id : Nat
  message_id : Nat
  song_title : PyStr
  artist : PyStr
  lyric_hints : List PyStr := []
  acceptable_title_answers : List PyStr := []
  acceptable_artist_answers : List PyStr := []
  clue : PyStr := []
  mode : PyStr := str ("either")
  is_active : Bool := true
  winner_id : Option Nat := none
  genre : Option PyStr := none
  hints_used : Nat := 0
  passes_used : Nat := 0
deriving DecidableEq

/-- The title_ok value of _is_correct_guess in karaoke_bot.py: match_any
over the acceptable title answers (each re-normalised) or contains_term of
the normalised title (truthy, i.e. non-empty, and contained in g). -/
def title_ok (round_obj : KaraokeRound) (g : PyStr) : Bool :=
  round_obj.acceptable_title_answers.any (fun ans => g == pyNorm ans) ||
  (!(pyNorm round_obj.song_title).isEmpty && within (pyNorm round_obj.song_title) g)

/-- The artist_ok value of _is_correct_guess in karaoke_bot.py. -/
def artist_ok (round_obj : KaraokeRound) (g : PyStr) : Bool :=
  round_obj.acceptable_artist_answers.any (fun ans => g == pyNorm ans) ||
  (!(pyNorm round_obj.artist).isEmpty && within (pyNorm round_obj.artist) g)

/-- _is_correct_guess from karaoke_bot.py (lines 204-235), with
g = _normalise_answer(guess) inlined and the local helpers factored as
title_ok and artist_ok above; the mode gates which side may match, any
unrecognised mode meaning either. -/
def is_correct_guess (round_obj : KaraokeRound) (guess : PyStr) : Bool :=
  if (pyNorm guess).isEmpty then false
  else if round_obj.mode = str ("title") then title_ok round_obj (pyNorm guess)
  else if round_obj.mode = str ("artist") then artist_ok round_obj (pyNorm guess)
  else title_ok round_obj (pyNorm guess) || artist_ok round_obj (pyNorm guess)

/-- User-visible side effects and state mutations of run_karaoke_round and
the hint/pass commands, in source order. -/
inductive KEv
  | scoreIncrement (uid : Nat)
  | streakIncrement
  | editWinnerDisplay
  | winAnnounce
  | scoreboardPost
  | editTimeUpDisplay
  | timeUpAnnounce
  | streakResetEv
  | wipeScores
  | resetAnnounce
  | editHintDisplay
  | hintRevealedNotice
  | hintAnnounce
  | passUsedNotice
  | passAnnounce
  | noticeMsg
deriving DecidableEq

/-- Result of the winning branch. -/
structure WonResult where
  round : KaraokeRound
  scores : Nat → Nat
  streak : Nat
  events : List KEv

/-- The winning branch of run_karaoke_round (lines 406-445), in source
order: the round is deactivated and the winner recorded, the winner's score
and the channel streak are incremented, and only then is the display message
edited (when it still exists with an embed, fetchOk) and the announcement and
scoreboard posted; the event list records that order. -/
def wonPath (r : KaraokeRound) (uid : Nat) (scores : Nat → Nat) (streak : Nat)
    (fetchOk : Bool) : WonResult :=
  { round := { r with is_active := false, winner_id := some uid },
    scores := fun u => if u = uid then scores u + 1 else scores u,
    streak := streak + 1,
    events := [.scoreIncrement uid, .streakIncrement] ++
      (if fetchOk then [.editWinnerDisplay] else []) ++
      [.winAnnounce, .scoreboardPost] }

/-- Result of the timeout branch. -/
structure TimeoutResult where
  round : KaraokeRound
  scores : Nat → Nat
  streak : Nat
  events : List KEv

/-- The timeout branch of run_karaoke_round (lines 448-487), in source order:
deactivate, edit the display to "time's up" (when it still exists), announce
the answer, reset the streak to 0, and — exactly when hints_used >= 3 and
passes_used >= 3 — wipe the channel scoreboard (modelled as the all-zero
score map) and post the reset announcement; finally post the scoreboard. -/
def timeoutPath (r : KaraokeRound) (scores : Nat → Nat) (streak : Nat)
    (fetchOk : Bool) : TimeoutResult :=
  { round := { r with is_active := false },
    scores := if r.hints_used ≥ 3 ∧ r.passes_used ≥ 3 then (fun _ => 0) else scores,
    streak := 0,
    events := (if fetchOk then [.editTimeUpDisplay] else []) ++
      [.timeUpAnnounce, .streakResetEv] ++
      (if r.hints_used ≥ 3 ∧ r.passes_used ≥ 3 then [.wipeScores, .resetAnnounce] else []) ++
      [.scoreboardPost] }

/-- mic_hint_command from karaoke_bot.py (lines 647-697) (the prefix command
m.hint, lines 744-784, is identical): reject when no active round, when 3
hints are used, or when no hint line is left for this song; otherwise
increment, then fetch the display message — when it exists with an embed
(fetchOk) edit it in place with the updated description and announce, and
when it is gone just send a notice (the increment has already happened). -/
def mic_hint_command (r : KaraokeRound) (fetchOk : Bool) : KaraokeRound × List KEv :=
  if !r.is_active then (r, [.noticeMsg])
  else if r.hints_used ≥ 3 then (r, [.noticeMsg])
  else if r.hints_used ≥ r.lyric_hints.length then (r, [.noticeMsg])
  else
    if fetchOk then
      ({ r with hints_used := r.hints_used + 1 },
        [.editHintDisplay, .hintRevealedNotice, .hintAnnounce])
    else ({ r with hints_used := r.hints_used + 1 }, [.noticeMsg])

/-- mic_pass_command from karaoke_bot.py (lines 704-739) (the prefix command
m.pass, lines 787-815, is identical): reject when no active round or when 3
passes are used; otherwise increment the pass counter and deactivate the
round (a new song is then loaded by start_new_song_after_pass). -/
def mic_pass_command (r : KaraokeRound) : KaraokeRound × List KEv :=
  if !r.is_active then (r, [.noticeMsg])
  else if r.passes_used ≥ 3 then (r, [.noticeMsg])
  else ({ r with passes_used := r.passes_used + 1, is_active := false },
        [.passUsedNotice, .passAnnounce])

/-- start_new_song_after_pass (lines 305-365): the replacement round carries
the hint and pass counters over from the old round. -/
def newRoundAfterPass (r : KaraokeRound) (song_title artist : PyStr)
    (lyric_hints acc_t acc_a : List PyStr) (clue : PyStr) : KaraokeRound :=
  { channel_id := r.channel_id, message_id := r.message_id,
    song_title := song_title, artist := artist, lyric_hints := lyric_hints,
    acceptable_title_answers := acc_t, acceptable_artist_answers := acc_a,
    clue := clue, mode := r.mode, is_active := true, winner_id := none,
    genre := r.genre, hints_used := r.hints_used, passes_used := r.passes_used }

/-- Rounds reachable from a fresh game (mic_command initialises both counters
to 0) by hint signals, pass signals, and the pass-replacement round. -/
inductive KReach : KaraokeRound → Prop
  | start (r : KaraokeRound) : r.hints_used = 0 → r.passes_used = 0 → KReach r
  | hint (r : KaraokeRound) (fetchOk : Bool) : KReach r → KReach (mic_hint_command r fetchOk).1
  | pass (r : KaraokeRound) : KReach r → KReach (mic_pass_command r).1
  | newSong (r : KaraokeRound) (song_title artist : PyStr)
      (lyric_hints acc_t acc_a : List PyStr) (clue : PyStr) :
      KReach r → KReach (newRoundAfterPass r song_title artist lyric_hints acc_t acc_a clue)

theorem kreach_budget {r : KaraokeRound} (h : KReach r) :
    r.hints_used ≤ 3 ∧ r.passes_used ≤ 3 := by
  induction h with
  | start r h1 h2 => omega
  | hint r fetchOk hr ih =>
    obtain ⟨ih1, ih2⟩ := ih
    by_cases h1 : r.is_active = false
    · simp [mic_hint_command, h1]
      omega
    · have h1t : r.is_active = true := by
        cases hb : r.is_active
        · exact absurd hb h1
        · rfl
      by_cases h2 : r.hints_used ≥ 3
      · simp [mic_hint_command, h1t, h2]
        omega
      · by_cases h3 : r.hints_used ≥ r.lyric_hints.length
        · simp [mic_hint_command, h1t, h2, h3]
          omega
        · cases hf : fetchOk
          · simp [mic_hint_command, h1t, h2, h3, hf]
            omega
          · simp [mic_hint_command, h1t, h2, h3, hf]
            omega
  | pass r hr ih =>
    obtain ⟨ih1, ih2⟩ := ih
    by_cases h1 : r.is_active = false
    · simp [mic_pass_command, h1]
      omega
    · have h1t : r.is_active = true := by
        cases hb : r.is_active
        · exact absurd hb h1
        · rfl
      by_cases h2 : r.passes_used ≥ 3
      · simp [mic_pass_command, h1t, h2]
        omega
      · simp [mic_pass_command, h1t, h2]
        omega
  | newSong r st a lh t1 t2 cl hr ih => simpa [newRoundAfterPass] using ih

end Karaoke

/-- State-mutation events of the micmate level model (micmate mutates only
scores in its Won path). -/
def isMutM : MicMate.MEv → Bool
  | .scoreIncrement _ => true
  | _ => false

/-- User-visible rendering events of the micmate level model. -/
def isRenderM : MicMate.MEv → Bool
  | .scoreIncrement _ => false
  | _ => true

/-- State-mutation events of the karaoke round model. -/
def isMutK : Karaoke.KEv → Bool
  | .scoreIncrement _ => true
  | .streakIncrement => true
  | .streakResetEv => true
  | .wipeScores => true
  | _ => false

/-- User-visible rendering events of the karaoke round model. -/
def isRenderK : Karaoke.KEv → Bool
  | .scoreIncrement _ => false
  | .streakIncrement => false
  | .streakResetEv => false
  | .wipeScores => false
  | _ => true

/-- The trace shape claimed by C4: every rendering precedes every mutation,
i.e. once the first mutation has happened, no rendering event follows. -/
def mutationsAfterRendersM (evs : List MicMate.MEv) : Bool :=
  (evs.dropWhile (fun e => !isMutM e)).all (fun e => !isRenderM e)

/-- Same trace shape for the karaoke event alphabet. -/
def mutationsAfterRendersK (evs : List Karaoke.KEv) : Bool :=
  (evs.dropWhile (fun e => !isMutK e)).all (fun e => !isRenderK e)

theorem dropWhile_all_append {α : Type} (p : α → Bool) :
    ∀ (X tail : List α), X.all p = true →
      List.dropWhile p (X ++ tail) = List.dropWhile p tail := by
  intro X
  induction X with
  | nil => intro tail _; rfl
  | cons x xs ih =>
    intro tail hall
    simp only [List.all_cons, Bool.and_eq_true] at hall
    simp [List.dropWhile_cons, hall.1, ih tail hall.2]

theorem playRound_no_mut (song : MicMate.SongRound) :
    ∀ (msgs : List MicMate.MsgIn) (passes : Nat),
      ((MicMate.playRound song msgs passes).2.2.2).all (fun e => !isMutM e) = true := by
  intro msgs
  induction msgs with
  | nil => intro passes; rfl
  | cons m rest ih =>
    intro passes
    cases m with
    | passCmd =>
      by_cases h : passes ≥ 3
      · have ihm := ih passes
        rw [List.all_eq_true] at ihm
        simp [MicMate.playRound, h, isMutM]
        intro x hx
        have hx2 := ihm x hx
        simpa using hx2
      · simp [MicMate.playRound, h, isMutM]
    | guess uid text =>
      by_cases h : MicMate.is_correct_guess song text = true
      · simp [MicMate.playRound, h]
      · simp only [MicMate.playRound, h, Bool.false_eq_true, if_false]
        exact ih passes

/-- Concrete karaoke round for the C4 counterexample. -/
def kRoundC4 : Karaoke.KaraokeRound :=
  { channel_id := 1, message_id := 10, song_title := str ("Imagine"),
    artist := str ("John Lennon") }

/-- C4 as stated is false: in karaoke_bot's Won path the score and streak
increments happen before the display edit and the outcome announcement, so
the mutations do not come after every rendering attempt. -/
theorem C4_counterexample :
    mutationsAfterRendersK ((Karaoke.wonPath kRoundC4 7 (fun _ => 0) 0 true).events) = false := by
  decide

/-- C4 (amended): in micmate's Won path every rendering (round embed,
reaction, answer embed) precedes the score mutation, which comes last; in
karaoke_bot's Won path the order is reversed — the score and streak
increments come first, then the display edit (when the message still
exists), the announcement and the scoreboard, and the streak grows by one. -/
theorem C4_won_side_effects :
    (∀ (song : MicMate.SongRound) (msgs : List MicMate.MsgIn) (scores : Nat → Nat)
        (passes : Nat) (uid : Nat),
      (MicMate.playSingleLevel (.ok song) msgs scores passes).winner_id = some uid →
      mutationsAfterRendersM (MicMate.playSingleLevel (.ok song) msgs scores passes).events = true) ∧
    (∀ (r : Karaoke.KaraokeRound) (uid : Nat) (scores : Nat → Nat) (streak : Nat)
        (fetchOk : Bool),
      (Karaoke.wonPath r uid scores streak fetchOk).events =
        [Karaoke.KEv.scoreIncrement uid, Karaoke.KEv.streakIncrement] ++
        (if fetchOk then [Karaoke.KEv.editWinnerDisplay] else []) ++
        [Karaoke.KEv.winAnnounce, Karaoke.KEv.scoreboardPost] ∧
      (Karaoke.wonPath r uid scores streak fetchOk).streak = streak + 1) := by
  constructor
  · intro song msgs scores passes uid hw
    cases hr : (MicMate.playRound song msgs passes).1 with
    | none =>
      exfalso
      by_cases hp : (MicMate.playRound song msgs passes).2.1 = true
      · simp [MicMate.playSingleLevel, hr, hp] at hw
      · simp [MicMate.playSingleLevel, hr, hp] at hw
    | some uid2 =>
      have hevs : (MicMate.playSingleLevel (.ok song) msgs scores passes).events =
          MicMate.MEv.roundEmbed :: (MicMate.playRound song msgs passes).2.2.2 ++
            [MicMate.MEv.reactWin, MicMate.MEv.winAnnounce, MicMate.MEv.scoreIncrement uid2] := by
        simp [MicMate.playSingleLevel, hr]
      rw [hevs]
      unfold mutationsAfterRendersM
      have hsplit : MicMate.MEv.roundEmbed :: (MicMate.playRound song msgs passes).2.2.2 ++
          [MicMate.MEv.reactWin, MicMate.MEv.winAnnounce, MicMate.MEv.scoreIncrement uid2] =
          (MicMate.MEv.roundEmbed :: (MicMate.playRound song msgs passes).2.2.2 ++
            [MicMate.MEv.reactWin, MicMate.MEv.winAnnounce]) ++
          [MicMate.MEv.scoreIncrement uid2] := by
        simp
      rw [hsplit, dropWhile_all_append _ _ _ ?hall]
      case hall =>
        have ihm := playRound_no_mut song msgs passes
        rw [List.all_eq_true] at ihm
        simp [List.all_cons, List.all_append, isMutM]
        intro x hx
        have hx2 := ihm x hx
        simpa using hx2
      simp [List.dropWhile, isMutM, isRenderM]
  · intro r uid scores streak fetchOk
    exact ⟨rfl, rfl⟩

/-- Witness for C4_won_side_effects: a concrete micmate level won by user 7,
whose event trace has the score mutation after all renders. -/
theorem C4_witness :
    (MicMate.playSingleLevel (.ok MicMate.songC1)
        [MicMate.MsgIn.guess 7 (str ("all i want"))] (fun _ => 0) 0).winner_id = some 7 ∧
    mutationsAfterRendersM (MicMate.playSingleLevel (.ok MicMate.songC1)
        [MicMate.MsgIn.guess 7 (str ("all i want"))] (fun _ => 0) 0).events = true :=
  ⟨by decide, C4_won_side_effects.1 MicMate.songC1
    [MicMate.MsgIn.guess 7 (str ("all i want"))] (fun _ => 0) 0 7 (by decide)⟩

/-- C5: on a timeout the streak is always reset to 0, and the scoreboard is
wiped (with a reset announcement) exactly when the hints-used and passes-used
counters are both at least 3 at that moment; otherwise the score map is left
unchanged. -/
theorem C5_timeout_reset (r : Karaoke.KaraokeRound) (scores : Nat → Nat) (streak : Nat)
    (fetchOk : Bool) :
    (Karaoke.timeoutPath r scores streak fetchOk).streak = 0 ∧
    (Karaoke.timeoutPath r scores streak fetchOk).scores =
      (if r.hints_used ≥ 3 ∧ r.passes_used ≥ 3 then (fun _ => 0) else scores) ∧
    (Karaoke.KEv.resetAnnounce ∈ (Karaoke.timeoutPath r scores streak fetchOk).events ↔
      (r.hints_used ≥ 3 ∧ r.passes_used ≥ 3)) := by
  refine ⟨rfl, rfl, ?_⟩
  by_cases h : r.hints_used ≥ 3 ∧ r.passes_used ≥ 3
  · simp [Karaoke.timeoutPath, h]
  · cases hf : fetchOk <;> simp [Karaoke.timeoutPath, h, hf]

/-- C6: in every reachable state of either bot the hint and pass counters
stay within 0..3, and an attempt made while the corresponding counter is
already 3 is rejected with a single user-visible notice and leaves the state
— counters, round activity, current song, scores — completely unchanged. -/
theorem C6_budget_bounds :
    (∀ s : MicMate.MicState, MicMate.Reach s → s.hints_used ≤ 3 ∧ s.passes_used ≤ 3) ∧
    (∀ r : Karaoke.KaraokeRound, Karaoke.KReach r → r.hints_used ≤ 3 ∧ r.passes_used ≤ 3) ∧
    (∀ s : MicMate.MicState, s.hints_used ≥ 3 →
      MicMate.use_hint s = (s, [MicMate.MEv.noticeMsg])) ∧
    (∀ s : MicMate.MicState, s.passes_used ≥ 3 →
      MicMate.passSignal s = (s, [MicMate.MEv.noPassesNotice])) ∧
    (∀ (r : Karaoke.KaraokeRound) (fetchOk : Bool), r.hints_used ≥ 3 →
      Karaoke.mic_hint_command r fetchOk = (r, [Karaoke.KEv.noticeMsg])) ∧
    (∀ r : Karaoke.KaraokeRound, r.passes_used ≥ 3 →
      Karaoke.mic_pass_command r = (r, [Karaoke.KEv.noticeMsg])) := by
  refine ⟨fun s h => MicMate.reach_budget h, fun r h => Karaoke.kreach_budget h, ?_, ?_, ?_, ?_⟩
  · intro s h3
    unfold MicMate.use_hint
    cases hb : s.activeGame
    · simp
    · cases hsong : s.song <;> simp [h3]
  · intro s h3
    unfold MicMate.passSignal
    simp [h3]
  · intro r fetchOk h3
    unfold Karaoke.mic_hint_command
    cases hb : r.is_active
    · simp
    · simp [h3]
  · intro r h3
    unfold Karaoke.mic_pass_command
    cases hb : r.is_active
    · simp
    · simp [h3]

/-- Concrete exhausted state for the C6 witness. -/
def sC6 : MicMate.MicState :=
  { activeGame := true, song := none, hints_used := 3, passes_used := 3,
    scores := fun _ => 0 }

/-- Witness for C6_budget_bounds: the initial state is within budget, and a
fourth pass attempt in an exhausted state is rejected without mutation. -/
theorem C6_witness :
    ((MicMate.initState none (fun _ => 0)).hints_used ≤ 3 ∧
      (MicMate.initState none (fun _ => 0)).passes_used ≤ 3) ∧
    MicMate.passSignal sC6 = (sC6, [MicMate.MEv.noPassesNotice]) :=
  ⟨C6_budget_bounds.1 _ (MicMate.Reach.init none (fun _ => 0)),
    C6_budget_bounds.2.2.2.1 sC6 (by decide)⟩

/-- Claim C8's assertions instantiated for a micmate hint attempt at state s:
an increment may happen only below both 3 and the number of hint lines
available, and an increment comes with an in-place edit of the round's
display message. -/
def claimC8AtMic (s : MicMate.MicState) : Prop :=
  ((MicMate.use_hint s).1.hints_used = s.hints_used + 1 →
    (s.hints_used < 3 ∧
      s.hints_used < (match s.song with
        | some song => song.hints.length
        | none => 0))) ∧
  ((MicMate.use_hint s).1.hints_used = s.hints_used + 1 →
    MicMate.MEv.editDisplay ∈ (MicMate.use_hint s).2)

/-- Concrete state for the C8 counterexample: an active round whose song has
no pre-generated hint lines at all. -/
def sC8 : MicMate.MicState :=
  { activeGame := true,
    song := some { song_title := str ("Imagine"), artist := str ("John Lennon"),
                   lyric_lines := [str ("a line")], acceptable_titles := [],
                   acceptable_artists := [], hints := [] },
    hints_used := 0, passes_used := 0, scores := fun _ => 0 }

/-- C8 as stated is false on micmate: with zero pre-generated hint lines,
use_hint still increments the counter (falling back to a structural title
hint) and sends a new message instead of editing the display. -/
theorem C8_counterexample : ¬ claimC8AtMic sC8 := by
  intro h
  have h1 := h.1 (by rfl)
  exact absurd h1.2 (by decide)

/-- C8 (amended): in karaoke_bot a hint signal increments exactly when the
round is active and the counter is below both 3 and the number of hint
lines, never changes the round's active flag, and — when the display message
can still be fetched — edits it in place before the notices; in micmate a
hint signal increments exactly when a game and a round are active and the
counter is below 3, regardless of how many pre-generated hint lines remain
(a structural title hint is the fallback), posts a new message and never an
edit, and leaves the game flag, the current song and the scores unchanged. -/
theorem C8_hint_behaviour :
    (∀ (r : Karaoke.KaraokeRound) (fetchOk : Bool),
      ((Karaoke.mic_hint_command r fetchOk).1.hints_used = r.hints_used + 1 ↔
        (r.is_active = true ∧ r.hints_used < 3 ∧ r.hints_used < r.lyric_hints.length)) ∧
      (Karaoke.mic_hint_command r fetchOk).1.is_active = r.is_active ∧
      (r.is_active = true → r.hints_used < 3 → r.hints_used < r.lyric_hints.length →
        fetchOk = true →
        (Karaoke.mic_hint_command r fetchOk).2 =
          [Karaoke.KEv.editHintDisplay, Karaoke.KEv.hintRevealedNotice,
            Karaoke.KEv.hintAnnounce])) ∧
    (∀ s : MicMate.MicState,
      ((MicMate.use_hint s).1.hints_used = s.hints_used + 1 ↔
        (s.activeGame = true ∧ s.song ≠ none ∧ s.hints_used < 3)) ∧
      MicMate.MEv.editDisplay ∉ (MicMate.use_hint s).2 ∧
      (MicMate.use_hint s).1.activeGame = s.activeGame ∧
      (MicMate.use_hint s).1.song = s.song) := by
  constructor
  · intro r fetchOk
    by_cases hb : r.is_active = true
    · by_cases h2 : r.hints_used ≥ 3
      · simp [Karaoke.mic_hint_command, hb, h2] <;> omega
      · by_cases h3 : r.hints_used ≥ r.lyric_hints.length
        · simp [Karaoke.mic_hint_command, hb, h2, h3] <;> omega
        · cases hf : fetchOk <;>
            simp [Karaoke.mic_hint_command, hb, h2, h3, hf] <;> omega
    · have hb2 : r.is_active = false := by
        cases hx : r.is_active
        · rfl
        · exact absurd hx hb
      simp [Karaoke.mic_hint_command, hb2] <;> omega
  · intro s
    by_cases hb : s.activeGame = true
    · cases hsong : s.song with
      | none => simp [MicMate.use_hint, hb, hsong]
      | some r0 =>
        by_cases h2 : s.hints_used ≥ 3
        · simp [MicMate.use_hint, hb, hsong, h2] <;> omega
        · simp [MicMate.use_hint, hb, hsong, h2] <;> omega
    · have hb2 : s.activeGame = false := by
        cases hx : s.activeGame
        · rfl
        · exact absurd hx hb
      simp [MicMate.use_hint, hb2] <;> omega

/-- Concrete round for the C8 witness. -/
def rC8 : Karaoke.KaraokeRound :=
  { channel_id := 1, message_id := 2, song_title := str ("Imagine"),
    artist := str ("John Lennon"), lyric_hints := [str ("h one"), str ("h two")] }

/-- Witness for C8_hint_behaviour: an accepted karaoke hint with the display
message present edits it in place. -/
theorem C8_witness :
    (Karaoke.mic_hint_command rC8 true).2 =
      [Karaoke.KEv.editHintDisplay, Karaoke.KEv.hintRevealedNotice,
        Karaoke.KEv.hintAnnounce] :=
  (C8_hint_behaviour.1 rC8 true).2.2 rfl (by decide) (by decide) rfl

/-- C9: normalisation is idempotent; both matchers' verdicts are invariant
under normalising the guess; and a guess whose normal form equals that of a
stored accepted variant is accepted — in micmate under the generator's
guarantee that stored variants are normalised and non-empty, in karaoke_bot
on each side that the round's mode leaves eligible. -/
theorem C9_normalisation :
    (∀ s : PyStr, pyNorm (pyNorm s) = pyNorm s) ∧
    (∀ (song : MicMate.SongRound) (g : PyStr),
      MicMate.is_correct_guess song (pyNorm g) = MicMate.is_correct_guess song g) ∧
    (∀ (r : Karaoke.KaraokeRound) (g : PyStr),
      Karaoke.is_correct_guess r (pyNorm g) = Karaoke.is_correct_guess r g) ∧
    (∀ (song : MicMate.SongRound) (a g : PyStr),
      (a ∈ song.acceptable_titles ∨ a ∈ song.acceptable_artists) →
      pyNorm a = a → a ≠ [] → pyNorm g = a →
      MicMate.is_correct_guess song g = true) ∧
    (∀ (r : Karaoke.KaraokeRound) (a g : PyStr),
      a ∈ r.acceptable_title_answers → r.mode ≠ str ("artist") →
      pyNorm g = pyNorm a → pyNorm g ≠ [] →
      Karaoke.is_correct_guess r g = true) ∧
    (∀ (r : Karaoke.KaraokeRound) (a g : PyStr),
      a ∈ r.acceptable_artist_answers → r.mode ≠ str ("title") →
      pyNorm g = pyNorm a → pyNorm g ≠ [] →
      Karaoke.is_correct_guess r g = true) := by
  refine ⟨pyNorm_idem, ?_, ?_, ?_, ?_, ?_⟩
  · intro song g
    unfold MicMate.is_correct_guess
    rw [pyNorm_idem]
  · intro r g
    unfold Karaoke.is_correct_guess
    rw [pyNorm_idem]
  · intro song a g hmem hna hne hga
    unfold MicMate.is_correct_guess
    rw [hga, if_neg (by simpa [List.isEmpty_iff] using hne), if_pos hmem]
  · intro r a g hmem hmode hga hne
    have htit : Karaoke.title_ok r (pyNorm g) = true := by
      unfold Karaoke.title_ok
      rw [Bool.or_eq_true]
      left
      rw [List.any_eq_true]
      refine ⟨a, hmem, ?_⟩
      rw [hga]
      simp
    unfold Karaoke.is_correct_guess
    rw [if_neg (by simpa [List.isEmpty_iff] using hne)]
    by_cases hm : r.mode = str ("title")
    · rw [if_pos hm, htit]
    · rw [if_neg hm, if_neg hmode, htit, Bool.true_or]
  · intro r a g hmem hmode hga hne
    have hart : Karaoke.artist_ok r (pyNorm g) = true := by
      unfold Karaoke.artist_ok
      rw [Bool.or_eq_true]
      left
      rw [List.any_eq_true]
      refine ⟨a, hmem, ?_⟩
      rw [hga]
      simp
    unfold Karaoke.is_correct_guess
    rw [if_neg (by simpa [List.isEmpty_iff] using hne), if_neg hmode]
    by_cases hm : r.mode = str ("artist")
    · rw [if_pos hm, hart]
    · rw [if_neg hm, hart, Bool.or_true]

/-- Concrete round for the C9 witness. -/
def rC9 : Karaoke.KaraokeRound :=
  { channel_id := 3, message_id := 4, song_title := str ("Imagine"),
    artist := str ("John Lennon"),
    acceptable_title_answers := [str ("imagine")],
    acceptable_artist_answers := [str ("john lennon"), str ("lennon")] }

/-- Witness for C9_normalisation: a guess differing from a stored variant
only in casing and extra whitespace is accepted by both matchers. -/
theorem C9_witness :
    MicMate.is_correct_guess MicMate.songC1 (str ("  MARIAH   Carey ")) = true ∧
    Karaoke.is_correct_guess rC9 (str ("  IMAGINE  ")) = true :=
  ⟨C9_normalisation.2.2.2.1 MicMate.songC1 (str ("mariah carey")) (str ("  MARIAH   Carey "))
      (Or.inr (by decide)) (by decide) (by decide) (by decide),
    C9_normalisation.2.2.2.2.1 rC9 (str ("imagine")) (str ("  IMAGINE  "))
      (by decide) (by decide) (by decide) (by decide)⟩

/-- Concrete input for the C7 witness: an 80-character line followed by a
40-character line; the second would push the total past 90 and is dropped. -/
def inC7 : List PyStr := [List.replicate 80 97, List.replicate 40 98]

/-- Witness for C7_lyric_truncation: on inC7 the boundary clause fires — one
line is kept and the dropped line's length would exceed the budget. -/
theorem C7_witness :
    (safeLines inC7).length < ((norm_list inC7).take 3).length ∧
    sumLens (safeLines inC7) +
      ((((norm_list inC7).take 3).map lineShort).getD (safeLines inC7).length []).length > 90 :=
  ⟨by decide, (C7_lyric_truncation inC7).2.2.2.2 (by decide)⟩
